import Mathlib

/-!
Verification of the Deadline Client Request Engine of aws-rfdk.

The repository ships the unit tests of the `DeadlineClient`
(src/unnamed/part_001) but not `deadline-client.ts` itself, so the engine
below is modelled from the specification (spec.md sections 3, 4, 6 and 7),
constrained by the observable behaviour that the unit tests pin down.  The
model covers: connection configuration and its validation, the transport
selector with its once-per-client secure context, header merging, request
dispatch, and the event-driven response assembler that turns a stream of
response events into a settled outcome.
-/

/-- Modelled from the spec: JSON values as produced by the platform
JSON.parse used by the response assembler (deadline-client.ts is absent
from the sources).  Numbers are restricted to integers, which is all the
observed behaviour exercises. -/
inductive JsonValue where
  | null : JsonValue
  | bool (b : Bool) : JsonValue
  | num (n : Int) : JsonValue
  | str (s : String) : JsonValue
  | arr (elems : List JsonValue) : JsonValue
  | obj (fields : List (String × JsonValue)) : JsonValue

/-- The double-quote character, written by code point to keep the parser
definitions readable. -/
def quoteChar : Char := Char.ofNat 34

/-- The backslash character. -/
def backslashChar : Char := Char.ofNat 92

/-- The opening-brace character. -/
def lbraceChar : Char := Char.ofNat 123

/-- The closing-brace character. -/
def rbraceChar : Char := Char.ofNat 125

/-- Whether a character is JSON insignificant whitespace. -/
def isWsChar (c : Char) : Bool :=
  c = ' ' || c = '\n' || c = '\t' || c = '\r'

/-- Drop leading JSON whitespace. -/
def skipWs (cs : List Char) : List Char :=
  match cs with
  | [] => []
  | c :: rest => if isWsChar c then skipWs rest else c :: rest

/-- Strip an expected literal from the front of the input, or fail. -/
def stripLit (lit : List Char) (cs : List Char) : Option (List Char) :=
  match lit, cs with
  | [], r => some r
  | l :: ls, c :: rest => if c = l then stripLit ls rest else none
  | _ :: _, [] => none

/-- Take the maximal digit prefix of the input. -/
def takeDigits (cs : List Char) : List Char × List Char :=
  match cs with
  | [] => ([], [])
  | c :: rest =>
    if c.isDigit then
      match takeDigits rest with
      | (ds, r) => (c :: ds, r)
    else ([], c :: rest)

/-- Decimal value of a digit string. -/
def digitsToNat (ds : List Char) : Nat :=
  ds.foldl (fun a c => a * 10 + (c.toNat - 48)) 0

/-- Parse a JSON integer, with optional leading minus sign. -/
def parseNumber (cs : List Char) : Option (Int × List Char) :=
  match cs with
  | [] => none
  | c :: rest =>
    if c = '-' then
      match takeDigits rest with
      | ([], _) => none
      | (ds, r) => some (-(Int.ofNat (digitsToNat ds)), r)
    else
      match takeDigits cs with
      | ([], _) => none
      | (ds, r) => some (Int.ofNat (digitsToNat ds), r)

/-- Translate a JSON string escape character. -/
def escapeChar (e : Char) : Option Char :=
  if e = quoteChar then some quoteChar
  else if e = backslashChar then some backslashChar
  else if e = '/' then some '/'
  else if e = 'n' then some '\n'
  else if e = 't' then some '\t'
  else if e = 'r' then some '\r'
  else none

/-- Parse the body of a JSON string literal, after the opening quote;
returns the decoded characters and the input past the closing quote. -/
def parseStringChars (cs : List Char) : Option (List Char × List Char) :=
  match cs with
  | [] => none
  | c :: rest =>
    if c = quoteChar then some ([], rest)
    else if c = backslashChar then
      match rest with
      | [] => none
      | e :: rest2 =>
        match escapeChar e with
        | none => none
        | some ec =>
          match parseStringChars rest2 with
          | some (s, r) => some (ec :: s, r)
          | none => none
    else
      match parseStringChars rest with
      | some (s, r) => some (c :: s, r)
      | none => none

mutual

/-- Fuel-bounded recursive-descent parser for a JSON value. -/
def parseVal (fuel : Nat) (cs : List Char) : Option (JsonValue × List Char) :=
  match fuel with
  | 0 => none
  | f + 1 =>
    match skipWs cs with
    | [] => none
    | c :: rest =>
      if c = quoteChar then
        match parseStringChars rest with
        | some (s, r) => some (JsonValue.str (String.mk s), r)
        | none => none
      else if c = lbraceChar then
        match skipWs rest with
        | d :: r2 =>
          if d = rbraceChar then some (JsonValue.obj [], r2)
          else
            match parseObjFields f (d :: r2) with
            | some (fs, r3) => some (JsonValue.obj fs, r3)
            | none => none
        | [] => none
      else if c = '[' then
        match skipWs rest with
        | d :: r2 =>
          if d = ']' then some (JsonValue.arr [], r2)
          else
            match parseArrElems f (d :: r2) with
            | some (vs, r3) => some (JsonValue.arr vs, r3)
            | none => none
        | [] => none
      else if c = 'n' then
        match stripLit ['u', 'l', 'l'] rest with
        | some r => some (JsonValue.null, r)
        | none => none
      else if c = 't' then
        match stripLit ['r', 'u', 'e'] rest with
        | some r => some (JsonValue.bool true, r)
        | none => none
      else if c = 'f' then
        match stripLit ['a', 'l', 's', 'e'] rest with
        | some r => some (JsonValue.bool false, r)
        | none => none
      else
        match parseNumber (c :: rest) with
        | some (n, r) => some (JsonValue.num n, r)
        | none => none

/-- Parse the comma-separated elements of a non-empty JSON array, up to and
including the closing bracket. -/
def parseArrElems (fuel : Nat) (cs : List Char) : Option (List JsonValue × List Char) :=
  match fuel with
  | 0 => none
  | f + 1 =>
    match parseVal f cs with
    | none => none
    | some (v, r) =>
      match skipWs r with
      | [] => none
      | c :: r2 =>
        if c = ',' then
          match parseArrElems f r2 with
          | some (vs, r3) => some (v :: vs, r3)
          | none => none
        else if c = ']' then some ([v], r2)
        else none

/-- Parse the members of a non-empty JSON object, up to and including the
closing brace. -/
def parseObjFields (fuel : Nat) (cs : List Char) : Option (List (String × JsonValue) × List Char) :=
  match fuel with
  | 0 => none
  | f + 1 =>
    match skipWs cs with
    | [] => none
    | c :: r =>
      if c = quoteChar then
        match parseStringChars r with
        | none => none
        | some (k, r2) =>
          match skipWs r2 with
          | [] => none
          | d :: r3 =>
            if d = ':' then
              match parseVal f r3 with
              | none => none
              | some (v, r4) =>
                match skipWs r4 with
                | [] => none
                | e :: r5 =>
                  if e = ',' then
                    match parseObjFields f r5 with
                    | some (fs, r6) => some ((String.mk k, v) :: fs, r6)
                    | none => none
                  else if e = rbraceChar then some ([(String.mk k, v)], r5)
                  else none
            else none
      else none

end

/-- Modelled from the spec: the platform JSON.parse applied by the response
assembler to the accumulated body (deadline-client.ts is absent from the
sources).  Returns some value when the whole input is a single JSON value
surrounded only by whitespace, and none on any parse failure. -/
def parseJson (s : String) : Option JsonValue :=
  match parseVal (2 * s.length + 4) s.toList with
  | some (v, r) => if skipWs r = [] then some v else none
  | none => none

/-- Modelled from the spec: the transport choice of the connection
configuration (PLAIN vs SECURE in spec.md section 3); the unit tests select
it through the protocol property with values HTTP and HTTPS. -/
inductive Protocol where
  | http : Protocol
  | https : Protocol
deriving DecidableEq

/-- Modelled from the spec: the optional TLS material of the connection
configuration; the unit tests supply it as tls with fields ca, pfx and
passphrase, each independently optional. -/
structure TlsProps where
  ca : Option String
  pfx : Option String
  passphrase : Option String
deriving DecidableEq

/-- Modelled from the spec: the construction parameters of the
DeadlineClient (host, port, transport selection, optional default headers,
optional TLS material), as the unit tests pass them. -/
structure DeadlineClientProps where
  host : String
  port : Int
  protocol : Protocol
  defaultHeaders : List (String × String)
  tls : Option TlsProps
deriving DecidableEq

/-- Modelled from the spec: the secure context (the option bag handed to
the https Agent): CA bundle, client certificate bundle and passphrase, each
either forwarded from the TLS material or absent (none). -/
structure AgentOptions where
  ca : Option String
  pfx : Option String
  passphrase : Option String
deriving DecidableEq

/-- Modelled from the spec: building the secure context by forwarding
whichever of ca, pfx and passphrase are present in the TLS material and
omitting (none) every absent field. -/
def mkAgentOptions (tls : Option TlsProps) : AgentOptions :=
  { ca := tls.bind (fun t => t.ca)
    pfx := tls.bind (fun t => t.pfx)
    passphrase := tls.bind (fun t => t.passphrase) }

/-- Modelled from the spec: the constructed client: the retained connection
parameters plus the secure context, which is built exactly once at
construction (only under SECURE transport) and reused for every request. -/
structure DeadlineClient where
  host : String
  port : Int
  protocol : Protocol
  defaultHeaders : List (String × String)
  agent : Option AgentOptions
deriving DecidableEq

/-- Modelled from the spec: the construction body of the DeadlineClient.
Under SECURE (HTTPS) transport it builds the secure context from the TLS
material; under PLAIN (HTTP) transport no secure context is created and the
TLS material is never consulted. -/
def buildClient (props : DeadlineClientProps) : DeadlineClient :=
  { host := props.host
    port := props.port
    protocol := props.protocol
    defaultHeaders := props.defaultHeaders
    agent :=
      if props.protocol = Protocol.https then some (mkAgentOptions props.tls)
      else none }

/-- Modelled from the spec: the configuration errors surfaced synchronously
at construction (spec.md section 7); the only validated field is the port,
which must be a non-negative integer. -/
inductive ConfigurationError where
  | negativePort : ConfigurationError
deriving DecidableEq

/-- Modelled from the spec: client construction with the synchronous
validation of the connection configuration: a negative port is rejected
with a ConfigurationError, any non-negative port is accepted (no
upper-bound check). -/
def mkDeadlineClient (props : DeadlineClientProps) :
    Except ConfigurationError DeadlineClient :=
  if props.port < 0 then Except.error ConfigurationError.negativePort
  else Except.ok (buildClient props)

/-- First value bound to a key in an association list of headers. -/
def lookupHeader (hs : List (String × String)) (k : String) : Option String :=
  match hs with
  | [] => none
  | kv :: rest => if kv.1 = k then some kv.2 else lookupHeader rest k

/-- Modelled from the spec: per-call headers merged on top of the
configured default headers, with per-call entries overriding conflicting
default entries (spec.md section 4.3). -/
def mergeHeaders (defaults percall : List (String × String)) :
    List (String × String) :=
  defaults.filter (fun kv => (lookupHeader percall kv.1).isNone) ++ percall

/-- The request method; the client exposes exactly GET and POST. -/
inductive Method where
  | get : Method
  | post : Method
deriving DecidableEq

/-- Modelled from the spec: the option record handed to the transport for
one request, as the unit tests observe it: the agent (the client's secure
context or none), method, port, host, path and the merged headers. -/
structure RequestOptions where
  agent : Option AgentOptions
  method : Method
  port : Int
  host : String
  path : String
  headers : List (String × String)
deriving DecidableEq

/-- Modelled from the spec: assembling the per-request options: connection
parameters and agent are taken unchanged from the client, and the per-call
headers are merged over the client's default headers. -/
def fillRequestOptions (c : DeadlineClient) (m : Method) (path : String)
    (percallHeaders : List (String × String)) : RequestOptions :=
  { agent := c.agent
    method := m
    port := c.port
    host := c.host
    path := path
    headers := mergeHeaders c.defaultHeaders percallHeaders }

/-- Modelled from the spec: the terminal state of a request's future:
resolved with a parsed JSON success value, or rejected with a message (the
status reason phrase, a decode failure, or a transport error). -/
inductive Settle where
  | resolved (data : JsonValue) : Settle
  | rejected (message : String) : Settle

/-- Modelled from the spec: the underlying stream events a request
observes: the response callback carrying the status line, body data chunks,
stream completion, and transport-level errors. -/
inductive StreamEvent where
  | response (statusCode : Nat) (statusMessage : String) : StreamEvent
  | data (chunk : String) : StreamEvent
  | ended : StreamEvent
  | error (message : String) : StreamEvent

/-- Modelled from the spec: the transient per-call state (PendingRequest,
spec.md section 3): the recorded status code, whether the data and end
subscribers were attached, the accumulated body chunks, and the settlement
of the future (none while still pending). -/
structure PendingRequest where
  recordedStatus : Option Nat
  subscribed : Bool
  chunks : List String
  settled : Option Settle

/-- The state of a pending request before any stream event. -/
def initialPending : PendingRequest :=
  { recordedStatus := none, subscribed := false, chunks := [], settled := none }

/-- Settling a future is first-wins: once settled, any further attempt to
resolve or reject is a no-op (promise semantics). -/
def settleWith (s : Settle) (st : PendingRequest) : PendingRequest :=
  match st.settled with
  | some _ => st
  | none => { st with settled := some s }

/-- Modelled from the spec: the rejection message used when the body of a
success response is not valid JSON (DecodeError, spec.md section 7). -/
def decodeFailureMessage : String := "DecodeError: response body is not valid JSON"

/-- Modelled from the spec and the unit tests: one step of the response
assembler (deadline-client.ts is absent from the sources).  On the response
callback the status code is recorded; when it is 400 or above the future is
rejected immediately with the status reason phrase — the failed-response
unit tests await that rejection without ever emitting a data or end event —
and otherwise the data and end subscribers are attached.  Each data chunk
is appended in arrival order.  On stream completion the accumulated chunks
are concatenated and parsed as JSON: the future resolves with the parsed
value, or rejects on a parse failure.  A transport error rejects the future
with the underlying message. -/
def stepEvent (st : PendingRequest) (ev : StreamEvent) : PendingRequest :=
  match ev with
  | StreamEvent.response code msg =>
    if 400 ≤ code then
      settleWith (Settle.rejected msg) { st with recordedStatus := some code }
    else
      { st with recordedStatus := some code, subscribed := true }
  | StreamEvent.data chunk =>
    if st.subscribed then { st with chunks := st.chunks ++ [chunk] } else st
  | StreamEvent.ended =>
    if st.subscribed then
      match parseJson (String.join st.chunks) with
      | some v => settleWith (Settle.resolved v) st
      | none => settleWith (Settle.rejected decodeFailureMessage) st
    else st
  | StreamEvent.error msg => settleWith (Settle.rejected msg) st

/-- Process a whole trace of stream events. -/
def runEvents (st : PendingRequest) (evs : List StreamEvent) : PendingRequest :=
  evs.foldl stepEvent st

/-- Modelled from the spec: issuing one request: build the request options
from the client (the wire-visible side) and run the response assembler over
the trace of stream events the transport delivers, yielding the settlement
of the returned future (none when the transport never completes). -/
def performRequest (c : DeadlineClient) (m : Method) (path : String)
    (percallHeaders : List (String × String)) (events : List StreamEvent) :
    RequestOptions × Option Settle :=
  (fillRequestOptions c m path percallHeaders,
   (runEvents initialPending events).settled)

/-- Modelled from the spec: GetRequest of the DeadlineClient. -/
def GetRequest (c : DeadlineClient) (path : String)
    (percallHeaders : List (String × String)) (events : List StreamEvent) :
    RequestOptions × Option Settle :=
  performRequest c Method.get path percallHeaders events

/-- Modelled from the spec: PostRequest of the DeadlineClient.  The body is
written to the socket and signals end-of-request; it does not influence the
response assembly, so it does not appear in the outcome. -/
def PostRequest (c : DeadlineClient) (path : String) (_body : String)
    (percallHeaders : List (String × String)) (events : List StreamEvent) :
    RequestOptions × Option Settle :=
  performRequest c Method.post path percallHeaders events

/-- The plain-transport construction parameters of the unit tests: host
hostname, port 8080, protocol HTTP, no default headers, no TLS material. -/
def plainTestProps : DeadlineClientProps :=
  { host := "hostname"
    port := 8080
    protocol := Protocol.http
    defaultHeaders := []
    tls := none }

/-- The plain-transport client of the unit tests. -/
def plainTestClient : DeadlineClient :=
  buildClient plainTestProps

/-- The secure-transport construction parameters of the unit tests without
TLS material: host hostname, port 4433, protocol HTTPS. -/
def secureTestProps : DeadlineClientProps :=
  { host := "hostname"
    port := 4433
    protocol := Protocol.https
    defaultHeaders := []
    tls := none }

/-- The secure-transport client of the unit tests without TLS material. -/
def secureTestClient : DeadlineClient :=
  buildClient secureTestProps

/-- The full TLS material of the unit tests: CA bundle cacontent, client
certificate bundle pfxcontent, passphrase passphrasecontent. -/
def fullTestTls : TlsProps :=
  { ca := some "cacontent"
    pfx := some "pfxcontent"
    passphrase := some "passphrasecontent" }

/-- The secure-transport construction parameters of the unit tests with
full TLS material. -/
def secureTlsTestProps : DeadlineClientProps :=
  { host := "hostname"
    port := 4433
    protocol := Protocol.https
    defaultHeaders := []
    tls := some fullTestTls }

/-- Plain-transport construction parameters that nevertheless carry full
TLS material, to observe that the material has no effect under PLAIN. -/
def plainWithTlsProps : DeadlineClientProps :=
  { host := "hostname"
    port := 8080
    protocol := Protocol.http
    defaultHeaders := []
    tls := some fullTestTls }

/-- The same construction parameters with the TLS material removed; under
PLAIN transport the client must not be able to tell the difference. -/
def stripTls (props : DeadlineClientProps) : DeadlineClientProps :=
  { host := props.host
    port := props.port
    protocol := props.protocol
    defaultHeaders := props.defaultHeaders
    tls := none }

/-- Construction parameters with a negative port, for the validation
check. -/
def negativePortProps : DeadlineClientProps :=
  { host := "hostname"
    port := -1
    protocol := Protocol.http
    defaultHeaders := []
    tls := none }

/-- Construction parameters with port zero, which the unit tests pass for
failure injection and which must be accepted. -/
def portZeroProps : DeadlineClientProps :=
  { host := "hostname"
    port := 0
    protocol := Protocol.http
    defaultHeaders := []
    tls := none }

/-- Sanity check of the JSON model: the response body of the unit tests
parses to the object with field test bound to true. -/
theorem parseJson_test_object :
    parseJson "\x7b\"test\":true\x7d"
      = some (JsonValue.obj [("test", JsonValue.bool true)]) := by rfl

/-- Sanity check of the JSON model: a non-JSON body fails to parse. -/
theorem parseJson_not_json : parseJson "not json" = none := by rfl

/-- Sanity check of the JSON model: arrays, numbers, null and strings. -/
theorem parseJson_mixed_array :
    parseJson " [1, -2, null, \"a\"] "
      = some (JsonValue.arr [JsonValue.num 1, JsonValue.num (-2),
          JsonValue.null, JsonValue.str "a"]) := by rfl

/-- Running a concatenated trace is running the two pieces in turn. -/
theorem runEvents_append (st : PendingRequest) (l1 l2 : List StreamEvent) :
    runEvents st (l1 ++ l2) = runEvents (runEvents st l1) l2 := by
  simp [runEvents, List.foldl_append]

/-- Settling never erases an existing settlement. -/
theorem settleWith_settled_of_some (s s0 : Settle) (st : PendingRequest)
    (h : st.settled = some s0) : (settleWith s st).settled = some s0 := by
  simp [settleWith, h]

/-- A settle attempt always leaves the request settled. -/
theorem settleWith_isSome (s : Settle) (st : PendingRequest) :
    ((settleWith s st).settled).isSome := by
  cases h : st.settled <;> simp [settleWith, h]

/-- One event step never changes an existing settlement. -/
theorem stepEvent_settled_stable (st : PendingRequest) (ev : StreamEvent)
    (s : Settle) (h : st.settled = some s) :
    (stepEvent st ev).settled = some s := by
  cases ev with
  | response code msg =>
    by_cases hc : 400 ≤ code
    · simp [stepEvent, hc]
      exact settleWith_settled_of_some _ _ _ (by simpa using h)
    · simp [stepEvent, hc, h]
  | data chunk =>
    by_cases hs : st.subscribed <;> simp [stepEvent, hs, h]
  | ended =>
    by_cases hs : st.subscribed
    · simp [stepEvent, hs]
      cases parseJson (String.join st.chunks) <;>
        simp [settleWith_settled_of_some _ _ _ h]
    · simp [stepEvent, hs, h]
  | error msg =>
    simp [stepEvent]
    exact settleWith_settled_of_some _ _ _ h

/-- A whole trace never changes an existing settlement: the first
settlement of a request is final. -/
theorem runEvents_settled_stable (evs : List StreamEvent) (st : PendingRequest)
    (s : Settle) (h : st.settled = some s) :
    (runEvents st evs).settled = some s := by
  induction evs generalizing st with
  | nil => simpa [runEvents]
  | cons ev rest ih =>
    have h1 := stepEvent_settled_stable st ev s h
    simpa [runEvents, List.foldl_cons] using ih (stepEvent st ev) h1

/-- A settled request stays settled under any further trace. -/
theorem runEvents_isSome_stable (evs : List StreamEvent) (st : PendingRequest)
    (h : (st.settled).isSome) : ((runEvents st evs).settled).isSome := by
  obtain ⟨s, hs⟩ := Option.isSome_iff_exists.mp h
  simp [runEvents_settled_stable evs st s hs]

/-- One event step never detaches the data and end subscribers. -/
theorem stepEvent_subscribed_stable (st : PendingRequest) (ev : StreamEvent)
    (h : st.subscribed = true) : (stepEvent st ev).subscribed = true := by
  cases ev with
  | response code msg =>
    by_cases hc : 400 ≤ code
    · simp only [stepEvent, hc, if_pos]
      cases hset : ({ st with recordedStatus := some code } : PendingRequest).settled <;>
        simp [settleWith, hset, h]
    · simp [stepEvent, hc, h]
  | data chunk =>
    simp [stepEvent, h]
  | ended =>
    simp only [stepEvent, h, if_pos]
    cases parseJson (String.join st.chunks) <;>
      cases hset : st.settled <;> simp [settleWith, hset, h]
  | error msg =>
    cases hset : st.settled <;> simp [stepEvent, settleWith, hset, h]

/-- A whole trace never detaches the data and end subscribers. -/
theorem runEvents_subscribed_stable (evs : List StreamEvent)
    (st : PendingRequest) (h : st.subscribed = true) :
    (runEvents st evs).subscribed = true := by
  induction evs generalizing st with
  | nil => simpa [runEvents]
  | cons ev rest ih =>
    simpa [runEvents, List.foldl_cons] using
      ih (stepEvent st ev) (stepEvent_subscribed_stable st ev h)

/-- With the subscribers attached, a data trace appends the chunks, in
emission order, to the accumulated buffer and changes nothing else. -/
theorem runEvents_data_chunks (chunks : List String) (st : PendingRequest)
    (h : st.subscribed = true) :
    runEvents st (chunks.map StreamEvent.data) =
      { st with chunks := st.chunks ++ chunks } := by
  induction chunks generalizing st with
  | nil => simp [runEvents]
  | cons c rest ih =>
    have hstep : stepEvent st (StreamEvent.data c) =
        { st with chunks := st.chunks ++ [c] } := by
      simp [stepEvent, h]
    have hsub : ({ st with chunks := st.chunks ++ [c] } : PendingRequest).subscribed = true := h
    simp only [List.map_cons, runEvents, List.foldl_cons]
    rw [show List.foldl stepEvent (stepEvent st (StreamEvent.data c))
          (List.map StreamEvent.data rest) =
        runEvents (stepEvent st (StreamEvent.data c)) (List.map StreamEvent.data rest) from rfl]
    rw [hstep, ih _ hsub]
    simp

/-- The end of the stream settles a subscribed request. -/
theorem stepEvent_ended_isSome (st : PendingRequest) (h : st.subscribed = true) :
    ((stepEvent st StreamEvent.ended).settled).isSome := by
  simp only [stepEvent, h, if_pos]
  cases parseJson (String.join st.chunks) <;> simp [settleWith_isSome]

/-- C1: for every request whose response status code is below 400 and whose
accumulated body is valid JSON, the returned future resolves with the
parsed JSON of exactly the concatenation of all emitted body chunks in
emission order. -/
theorem deadline_request_success_resolves_parsed_concatenation
    (c : DeadlineClient) (m : Method) (path : String)
    (hdrs : List (String × String)) (code : Nat) (msg : String)
    (chunks : List String) (v : JsonValue)
    (hcode : code < 400)
    (hparse : parseJson (String.join chunks) = some v) :
    (performRequest c m path hdrs
      (StreamEvent.response code msg ::
        (chunks.map StreamEvent.data ++ [StreamEvent.ended]))).2
      = some (Settle.resolved v) := by
  have hnc : ¬ 400 ≤ code := by omega
  have h1 : (performRequest c m path hdrs
      (StreamEvent.response code msg ::
        (chunks.map StreamEvent.data ++ [StreamEvent.ended]))).2
    = (runEvents (stepEvent initialPending (StreamEvent.response code msg))
        (chunks.map StreamEvent.data ++ [StreamEvent.ended])).settled := rfl
  rw [h1]
  have h2 : stepEvent initialPending (StreamEvent.response code msg)
      = { recordedStatus := some code, subscribed := true, chunks := [],
          settled := none } := by
    simp [stepEvent, hnc, initialPending]
  rw [h2, runEvents_append, runEvents_data_chunks chunks _ rfl]
  simp [runEvents, stepEvent, settleWith, hparse]

/-- C1 witness: the end-to-end scenario of the spec: a GET answered with
status 200 and body chunk containing the object with field test set to true
resolves with exactly that parsed object. -/
theorem deadline_request_success_resolves_parsed_concatenation_witness :
    (performRequest plainTestClient
      Method.get "/get/version/test" []
      (StreamEvent.response 200 "OK" ::
        (List.map StreamEvent.data ["\x7b\"test\":true\x7d"] ++ [StreamEvent.ended]))).2
      = some (Settle.resolved (JsonValue.obj [("test", JsonValue.bool true)])) :=
  deadline_request_success_resolves_parsed_concatenation _ _ _ _ 200 "OK"
    ["\x7b\"test\":true\x7d"] _ (by omega) (by rfl)

/-- C2: for every request whose response status code is at least 400, the
returned future rejects with exactly the protocol-provided reason phrase —
not the numeric code and not the body — regardless of body content, for
every method (GET or POST) and every client (PLAIN or SECURE transport). -/
theorem deadline_request_failure_rejects_with_reason_phrase
    (c : DeadlineClient) (m : Method) (path : String)
    (hdrs : List (String × String)) (code : Nat) (msg : String)
    (chunks : List String) (hcode : 400 ≤ code) :
    (performRequest c m path hdrs
      (StreamEvent.response code msg ::
        (chunks.map StreamEvent.data ++ [StreamEvent.ended]))).2
      = some (Settle.rejected msg) := by
  have h1 : (performRequest c m path hdrs
      (StreamEvent.response code msg ::
        (chunks.map StreamEvent.data ++ [StreamEvent.ended]))).2
    = (runEvents (stepEvent initialPending (StreamEvent.response code msg))
        (chunks.map StreamEvent.data ++ [StreamEvent.ended])).settled := rfl
  rw [h1]
  apply runEvents_settled_stable
  simp [stepEvent, hcode, initialPending, settleWith]

/-- C2 witness: the failure scenario of the unit tests: a SECURE-transport
POST answered with status 400 and reason phrase status message rejects with
exactly that reason phrase, whatever body was emitted. -/
theorem deadline_request_failure_rejects_with_reason_phrase_witness :
    (performRequest secureTestClient
      Method.post "anypath" []
      (StreamEvent.response 400 "status message" ::
        (List.map StreamEvent.data ["ignored body"] ++ [StreamEvent.ended]))).2
      = some (Settle.rejected "status message") :=
  deadline_request_failure_rejects_with_reason_phrase _ _ _ _ 400
    "status message" ["ignored body"] (by omega)

/-- C10: for every request whose response status code is below 400 but
whose accumulated body is not valid JSON, the returned future rejects with
the decode failure — it is never resolved with a success value and never
left pending. -/
theorem success_status_invalid_json_rejects
    (c : DeadlineClient) (m : Method) (path : String)
    (hdrs : List (String × String)) (code : Nat) (msg : String)
    (chunks : List String) (hcode : code < 400)
    (hparse : parseJson (String.join chunks) = none) :
    (performRequest c m path hdrs
      (StreamEvent.response code msg ::
        (chunks.map StreamEvent.data ++ [StreamEvent.ended]))).2
      = some (Settle.rejected decodeFailureMessage) := by
  have hnc : ¬ 400 ≤ code := by omega
  have h1 : (performRequest c m path hdrs
      (StreamEvent.response code msg ::
        (chunks.map StreamEvent.data ++ [StreamEvent.ended]))).2
    = (runEvents (stepEvent initialPending (StreamEvent.response code msg))
        (chunks.map StreamEvent.data ++ [StreamEvent.ended])).settled := rfl
  rw [h1]
  have h2 : stepEvent initialPending (StreamEvent.response code msg)
      = { recordedStatus := some code, subscribed := true, chunks := [],
          settled := none } := by
    simp [stepEvent, hnc, initialPending]
  rw [h2, runEvents_append, runEvents_data_chunks chunks _ rfl]
  simp [runEvents, stepEvent, settleWith, hparse]

/-- C10 witness: a status-200 response whose body is not JSON rejects with
the decode failure. -/
theorem success_status_invalid_json_rejects_witness :
    (performRequest plainTestClient
      Method.get "/get/version/test" []
      (StreamEvent.response 200 "OK" ::
        (List.map StreamEvent.data ["not json"] ++ [StreamEvent.ended]))).2
      = some (Settle.rejected decodeFailureMessage) :=
  success_status_invalid_json_rejects _ _ _ _ 200 "OK" ["not json"]
    (by omega) (by rfl)

/-- C3: the future of a request settles exactly once, no matter how many
stream events fire: (1) an existing settlement is final — no later event
can change or clear it; and it does settle whenever the trace contains a
completing trigger: (2) a response callback with status at least 400,
(3) a transport error, or (4) a sub-400 response callback followed,
possibly after data chunks, by the end of the stream. -/
theorem deadline_request_future_settles_exactly_once :
    (∀ (st : PendingRequest) (s : Settle) (evs : List StreamEvent),
        st.settled = some s → (runEvents st evs).settled = some s)
    ∧ (∀ (pre post : List StreamEvent) (code : Nat) (msg : String),
        400 ≤ code →
        ((runEvents initialPending
            (pre ++ StreamEvent.response code msg :: post)).settled).isSome)
    ∧ (∀ (pre post : List StreamEvent) (msg : String),
        ((runEvents initialPending
            (pre ++ StreamEvent.error msg :: post)).settled).isSome)
    ∧ (∀ (pre mid post : List StreamEvent) (code : Nat) (msg : String),
        code < 400 →
        ((runEvents initialPending
            (pre ++ StreamEvent.response code msg ::
              (mid ++ StreamEvent.ended :: post))).settled).isSome) := by
  refine ⟨fun st s evs h => runEvents_settled_stable evs st s h, ?_, ?_, ?_⟩
  · intro pre post code msg hc
    rw [runEvents_append]
    have h1 : runEvents (runEvents initialPending pre)
        (StreamEvent.response code msg :: post)
      = runEvents (stepEvent (runEvents initialPending pre)
          (StreamEvent.response code msg)) post := rfl
    rw [h1]
    apply runEvents_isSome_stable
    simp [stepEvent, hc, settleWith_isSome]
  · intro pre post msg
    rw [runEvents_append]
    have h1 : runEvents (runEvents initialPending pre)
        (StreamEvent.error msg :: post)
      = runEvents (stepEvent (runEvents initialPending pre)
          (StreamEvent.error msg)) post := rfl
    rw [h1]
    apply runEvents_isSome_stable
    simp [stepEvent, settleWith_isSome]
  · intro pre mid post code msg hc
    have hnc : ¬ 400 ≤ code := by omega
    rw [runEvents_append]
    have h1 : runEvents (runEvents initialPending pre)
        (StreamEvent.response code msg :: (mid ++ StreamEvent.ended :: post))
      = runEvents (stepEvent (runEvents initialPending pre)
          (StreamEvent.response code msg)) (mid ++ StreamEvent.ended :: post) := rfl
    rw [h1, runEvents_append]
    have hsub1 : (stepEvent (runEvents initialPending pre)
        (StreamEvent.response code msg)).subscribed = true := by
      simp [stepEvent, hnc]
    have hsub2 : (runEvents (stepEvent (runEvents initialPending pre)
        (StreamEvent.response code msg)) mid).subscribed = true :=
      runEvents_subscribed_stable mid _ hsub1
    have h2 : runEvents (runEvents (stepEvent (runEvents initialPending pre)
        (StreamEvent.response code msg)) mid) (StreamEvent.ended :: post)
      = runEvents (stepEvent (runEvents (stepEvent (runEvents initialPending pre)
          (StreamEvent.response code msg)) mid) StreamEvent.ended) post := rfl
    rw [h2]
    exact runEvents_isSome_stable post _ (stepEvent_ended_isSome _ hsub2)

/-- C3 witness: a concrete complete trace — headers with status 200, one
data chunk, then the end of the stream — leaves the future settled. -/
theorem deadline_request_future_settles_exactly_once_witness :
    ((runEvents initialPending
        ([] ++ StreamEvent.response 200 "OK" ::
          ([StreamEvent.data "\x7b\x7d"] ++ StreamEvent.ended :: []))).settled).isSome :=
  deadline_request_future_settles_exactly_once.2.2.2
    [] [StreamEvent.data "\x7b\x7d"] [] 200 "OK" (by omega)

/-- C4 counterexample: with status 400 the engine settles (rejects) the
future already at header receipt, before any body or stream-completion
event: processing the response callback alone leaves the future rejected
with the reason phrase, refuting the claim that the engine never decides
before the response stream completes. -/
theorem status_acted_on_at_header_receipt_counterexample :
    (runEvents initialPending
        [StreamEvent.response 400 "status message"]).settled
      = some (Settle.rejected "status message") := by rfl

/-- C4 amended: on header receipt the status code is recorded, and for a
status below 400 it is not acted upon — the future stays pending through
any number of body chunks until the stream completes; for a status of 400
or above the engine rejects the future immediately at header receipt,
without draining the body. -/
theorem status_recorded_success_path_only_amended (code : Nat) (msg : String)
    (chunks : List String) :
    (code < 400 →
      (runEvents initialPending
          (StreamEvent.response code msg :: chunks.map StreamEvent.data)).settled
        = none
      ∧ (runEvents initialPending
          (StreamEvent.response code msg :: chunks.map StreamEvent.data)).recordedStatus
        = some code)
    ∧ (400 ≤ code →
      (runEvents initialPending [StreamEvent.response code msg]).settled
        = some (Settle.rejected msg)) := by
  constructor
  · intro hc
    have hnc : ¬ 400 ≤ code := by omega
    have h1 : runEvents initialPending
        (StreamEvent.response code msg :: chunks.map StreamEvent.data)
      = runEvents (stepEvent initialPending (StreamEvent.response code msg))
          (chunks.map StreamEvent.data) := rfl
    have h2 : stepEvent initialPending (StreamEvent.response code msg)
        = { recordedStatus := some code, subscribed := true, chunks := [],
            settled := none } := by
      simp [stepEvent, hnc, initialPending]
    rw [h1, h2, runEvents_data_chunks chunks _ rfl]
    simp
  · intro hc
    simp [runEvents, stepEvent, hc, initialPending, settleWith]

/-- C4 amended witness: at status 200 the future is still pending after the
headers and a body chunk; at status 400 it is already rejected at header
receipt. -/
theorem status_recorded_success_path_only_amended_witness :
    (runEvents initialPending
        (StreamEvent.response 200 "OK" ::
          List.map StreamEvent.data ["\x7b\x7d"])).settled = none
    ∧ (runEvents initialPending
        [StreamEvent.response 400 "status message"]).settled
      = some (Settle.rejected "status message") :=
  ⟨((status_recorded_success_path_only_amended 200 "OK" ["\x7b\x7d"]).1
      (by omega)).1,
   (status_recorded_success_path_only_amended 400 "status message" []).2
      (by omega)⟩

/-- C5: constructing a client with SECURE transport and full TLS material
attaches exactly the three supplied values (CA bundle, client certificate
bundle, passphrase) to the secure context, and every request issued by
that client — whatever its method, path, headers or response trace —
carries that construction-time secure context unchanged. -/
theorem secure_context_full_tls_built_once_and_reused
    (props : DeadlineClientProps) (ca pfx pass : String)
    (hproto : props.protocol = Protocol.https)
    (htls : props.tls = some { ca := some ca, pfx := some pfx, passphrase := some pass }) :
    (buildClient props).agent
      = some { ca := some ca, pfx := some pfx, passphrase := some pass }
    ∧ ∀ (m : Method) (path : String) (hdrs : List (String × String))
        (events : List StreamEvent),
        (performRequest (buildClient props) m path hdrs events).1.agent
          = (buildClient props).agent := by
  constructor
  · simp [buildClient, hproto, mkAgentOptions, htls]
  · intro m path hdrs events
    rfl

/-- C5 witness: the secure client of the unit tests with full TLS material
carries exactly cacontent, pfxcontent and passphrasecontent in its secure
context, and a POST request reuses that same context. -/
theorem secure_context_full_tls_built_once_and_reused_witness :
    (buildClient secureTlsTestProps).agent
      = some { ca := some "cacontent", pfx := some "pfxcontent",
               passphrase := some "passphrasecontent" }
    ∧ (performRequest (buildClient secureTlsTestProps) Method.post
        "/save/version/test" [] []).1.agent
      = (buildClient secureTlsTestProps).agent :=
  ⟨(secure_context_full_tls_built_once_and_reused secureTlsTestProps
      "cacontent" "pfxcontent" "passphrasecontent" (by rfl) (by rfl)).1,
   (secure_context_full_tls_built_once_and_reused secureTlsTestProps
      "cacontent" "pfxcontent" "passphrasecontent" (by rfl) (by rfl)).2
      Method.post "/save/version/test" [] []⟩

/-- C6: a client constructed with PLAIN transport never builds a secure
context (its agent is none), and whatever TLS material is supplied it is
observationally identical to the client built without any TLS material:
every request it issues is the same. -/
theorem plain_transport_never_builds_secure_context
    (props : DeadlineClientProps) (hproto : props.protocol = Protocol.http) :
    (buildClient props).agent = none
    ∧ buildClient props = buildClient (stripTls props)
    ∧ ∀ (m : Method) (path : String) (hdrs : List (String × String))
        (events : List StreamEvent),
        performRequest (buildClient props) m path hdrs events
          = performRequest (buildClient (stripTls props)) m path hdrs events := by
  refine ⟨by simp [buildClient, hproto], by simp [buildClient, stripTls, hproto], ?_⟩
  intro m path hdrs events
  have h : buildClient props = buildClient (stripTls props) := by
    simp [buildClient, stripTls, hproto]
  rw [h]

/-- C6 witness: the PLAIN client of the unit tests carrying full TLS
material builds no secure context, and its GET request is identical to the
one of the PLAIN client without TLS material. -/
theorem plain_transport_never_builds_secure_context_witness :
    (buildClient plainWithTlsProps).agent = none
    ∧ performRequest (buildClient plainWithTlsProps) Method.get
        "/get/version/test" [] []
      = performRequest (buildClient (stripTls plainWithTlsProps))
        Method.get "/get/version/test" [] [] :=
  ⟨(plain_transport_never_builds_secure_context plainWithTlsProps (by rfl)).1,
   (plain_transport_never_builds_secure_context plainWithTlsProps (by rfl)).2.2
      Method.get "/get/version/test" [] []⟩

/-- C7: constructing a client with SECURE transport and no TLS material
succeeds (for any valid, non-negative port), and the secure context it
builds carries no CA, client-certificate or passphrase entry: every one of
the three fields is absent (none) rather than an empty value. -/
theorem secure_transport_without_tls_material_ok
    (props : DeadlineClientProps) (hproto : props.protocol = Protocol.https)
    (htls : props.tls = none) (hport : 0 ≤ props.port) :
    mkDeadlineClient props = Except.ok (buildClient props)
    ∧ (buildClient props).agent
      = some { ca := none, pfx := none, passphrase := none } := by
  constructor
  · have hn : ¬ props.port < 0 := by omega
    simp [mkDeadlineClient, hn]
  · simp [buildClient, hproto, mkAgentOptions, htls]

/-- C7 witness: the secure client of the unit tests without TLS material
constructs without error and its secure context has all three fields
absent. -/
theorem secure_transport_without_tls_material_ok_witness :
    mkDeadlineClient secureTestProps = Except.ok (buildClient secureTestProps)
    ∧ (buildClient secureTestProps).agent
      = some { ca := none, pfx := none, passphrase := none } :=
  secure_transport_without_tls_material_ok secureTestProps (by rfl) (by rfl)
    (by norm_num [secureTestProps])

/-- C9: constructing a client with a negative port fails synchronously at
construction with a ConfigurationError, while any non-negative port —
including 0, with no upper bound — is accepted without error. -/
theorem negative_port_rejected_nonnegative_accepted
    (props : DeadlineClientProps) :
    (props.port < 0 →
      mkDeadlineClient props = Except.error ConfigurationError.negativePort)
    ∧ (0 ≤ props.port →
      mkDeadlineClient props = Except.ok (buildClient props)) := by
  constructor
  · intro h
    simp [mkDeadlineClient, h]
  · intro h
    have hn : ¬ props.port < 0 := by omega
    simp [mkDeadlineClient, hn]

/-- C9 witness: port -1 is rejected with the ConfigurationError and port 0
is accepted. -/
theorem negative_port_rejected_nonnegative_accepted_witness :
    mkDeadlineClient negativePortProps
      = Except.error ConfigurationError.negativePort
    ∧ mkDeadlineClient portZeroProps = Except.ok (buildClient portZeroProps) :=
  ⟨(negative_port_rejected_nonnegative_accepted negativePortProps).1
      (by norm_num [negativePortProps]),
   (negative_port_rejected_nonnegative_accepted portZeroProps).2
      (by norm_num [portZeroProps])⟩

/-- Header lookup distributes over list concatenation: the left part is
consulted first. -/
theorem lookupHeader_append (xs ys : List (String × String)) (k : String) :
    lookupHeader (xs ++ ys) k
      = match lookupHeader xs k with
        | some v => some v
        | none => lookupHeader ys k := by
  induction xs with
  | nil => simp [lookupHeader]
  | cons kv rest ih =>
    by_cases hk : kv.1 = k <;> simp [lookupHeader, hk, ih]

/-- Looking a key up among the default headers that survive the per-call
filter: it is found exactly when the per-call headers do not bind it. -/
theorem lookupHeader_filter_surviving (d p : List (String × String))
    (k : String) :
    lookupHeader (d.filter (fun kv => (lookupHeader p kv.1).isNone)) k
      = if (lookupHeader p k).isNone then lookupHeader d k else none := by
  induction d with
  | nil => simp [lookupHeader]
  | cons kv rest ih =>
    by_cases hk : kv.1 = k
    · by_cases hp : (lookupHeader p k).isNone
      · rw [List.filter_cons]
        simp [hk, hp, lookupHeader, ih]
      · rw [List.filter_cons]
        simp [hk, hp, lookupHeader, ih]
    · by_cases hp2 : (lookupHeader p kv.1).isNone
      · rw [List.filter_cons]
        simp [hk, hp2, lookupHeader, ih]
      · rw [List.filter_cons]
        simp [hk, hp2, lookupHeader, ih]

/-- C8: for every GET or POST call, the headers sent with the request are
exactly the per-call headers merged on top of the client's configured
default headers, and in the merged mapping a per-call entry overrides a
conflicting default entry: a key resolves to its per-call binding when one
exists and to its default binding otherwise. -/
theorem percall_headers_merge_over_defaults (c : DeadlineClient) (m : Method)
    (path : String) (percall : List (String × String))
    (events : List StreamEvent) :
    (performRequest c m path percall events).1.headers
      = mergeHeaders c.defaultHeaders percall
    ∧ ∀ (k : String),
        lookupHeader (mergeHeaders c.defaultHeaders percall) k
          = match lookupHeader percall k with
            | some v => some v
            | none => lookupHeader c.defaultHeaders k := by
  constructor
  · rfl
  · intro k
    rw [mergeHeaders, lookupHeader_append, lookupHeader_filter_surviving]
    cases hp : lookupHeader percall k <;>
      cases hd : lookupHeader c.defaultHeaders k <;> simp [hp, hd]
